import Mathlib

/-!
# Memstore: an in-memory key-value store with transactions

A shallow embedding of `memstore.go` (package `ekv`).

* A Go `[]byte` is a `List UInt8`; the nil slice and the empty slice are both
  the empty list.
* A Go `map[string]V` is an association list without repeated keys. The order
  of its entries is the order in which `range` visits them, which Go leaves
  unspecified; statements about a map therefore quantify over every order.
  A nil map, where the code produces one, is `none`.
* A Go `error` is an `Option GoError`, `none` being the nil error.
* Every method holds `m.mux` from its first to its last statement, so a call
  is one step that takes the store before the call to the store after it,
  together with the returned values. The lock itself is not represented.
* In the first part a callback is a function of the values it is given, which
  is all that the statements proved there depend on. The code hands a callback
  the stored slices themselves and the snapshot map itself, and a callback may
  assign into both; the sections on slices as references and on callbacks in
  memory read the same statements of `memstore.go` with the memory threaded
  through the callback, and every statement about what a callback can reach is
  made there.
-/

namespace ekv

/-- A byte sequence, Go `[]byte`. -/
abbrev Bytes := List UInt8

/-- A Go `map[string]V`. -/
abbrev GoMap (V : Type) := AList (fun _ : String => V)

/-- An error value as produced by `github.com/pkg/errors`: `errors.New msg`, or a
cause annotated with a message by `errors.Wrapf`. -/
inductive GoError where
  | new (msg : String)
  | withMessage (cause : GoError) (msg : String)
  deriving DecidableEq, Repr

/-- The text of an error, the `Error()` method: an annotated error prints its
message, a colon and the text of its cause. -/
def GoError.Error : GoError → String
  | .new msg => msg
  | .withMessage cause msg => msg ++ ": " ++ cause.Error

/-- The innermost error, `errors.Cause`. -/
def GoError.Cause : GoError → GoError
  | .new msg => .new msg
  | .withMessage cause _ => cause.Cause

/-- The function `errors.Wrapf(err, format, args...)`, with the format already
applied: a nil error stays nil, any other error is annotated. -/
def Wrapf (err : Option GoError) (msg : String) : Option GoError :=
  match err with
  | none => none
  | some e => some (.withMessage e msg)

/-- The constant `objectNotFoundErr`. -/
def objectNotFoundErr : String := "object not found"

/-- The constant `setInterfaceErr`. -/
def setInterfaceErr : String := "SetInterface error"

/-- The snapshot of one key: its bytes and whether it was present. -/
structure Value where
  Data : Bytes
  Exists : Bool
  deriving DecidableEq, Repr

/-- The callback of `Transaction`, by the values alone: from the old bytes and
presence to the new bytes, the deletion flag and an error. What a callback
writes into the slice it is handed is in `Mem.TransactionOperation`. -/
abbrev TransactionOperation := Bytes → Bool → Bytes × Bool × Option GoError

/-- The callback of `MutualTransaction`, by the values alone: from the snapshot
to the new contents (possibly a nil map) and an error. What a callback writes
into the snapshot map and its slices is in `Mem.MutualTransactionOperation`. -/
abbrev MutualTransactionOperation :=
  GoMap Value → Option (GoMap Value) × Option GoError

/-- Modelled from the spec: the Marshaler capability ("serialize self to
bytes"), whose declaration is outside `memstore.go`. An object is given by what
its `Marshal` method returns. -/
structure Marshaler where
  Marshal : Bytes

/-- The store: the field `store` of the Go struct. -/
structure Memstore where
  store : GoMap Bytes

/-- The two-result map read `v, ok = m[key]`: the zero value and `false` when the
key is absent. -/
def index (m : GoMap Bytes) (key : String) : Bytes × Bool :=
  match m.lookup key with
  | some data => (data, true)
  | none => ([], false)

/-- A new store with an empty map. -/
def MakeMemstore : Memstore := ⟨∅⟩

/-- `SetBytes`: `m.store[key] = data; return nil`. -/
def Memstore.SetBytes (m : Memstore) (key : String) (data : Bytes) :
    Memstore × Option GoError :=
  (⟨m.store.insert key data⟩, none)

/-- `Set`: `return m.SetBytes(key, objectToStore.Marshal())`. -/
def Memstore.Set (m : Memstore) (key : String) (objectToStore : Marshaler) :
    Memstore × Option GoError :=
  m.SetBytes key objectToStore.Marshal

/-- `Delete`: `delete(m.store, key); return nil`. -/
def Memstore.Delete (m : Memstore) (key : String) : Memstore × Option GoError :=
  (⟨m.store.erase key⟩, none)

/-- `GetBytes`: the stored bytes, or nil bytes and the error
`Wrapf(New(objectNotFoundErr), "Key %s", key)` when the key is absent. The store
is not written. -/
def Memstore.GetBytes (m : Memstore) (key : String) : Bytes × Option GoError :=
  let (data, ok) := index m.store key
  if !ok then
    ([], Wrapf (some (.new objectNotFoundErr)) ("Key " ++ key))
  else
    (data, none)

/-- `Transaction`: read the key, run the callback, and on success delete or
overwrite the key. Returns the store after the call and the triple
`(old, existed, err)`, as they are when the callback writes nothing in place;
`Mem.Transaction` is the same method with the memory. -/
def Memstore.Transaction (m : Memstore) (key : String) (op : TransactionOperation) :
    Memstore × (Bytes × Bool × Option GoError) :=
  let (old, existed) := index m.store key
  let (newData, deletion, err) := op old existed
  if err.isSome then
    (m, ([], existed, Wrapf err ("Key: " ++ key)))
  else if deletion then
    (⟨m.store.erase key⟩, (old, existed, none))
  else
    (⟨m.store.insert key newData⟩, (old, existed, none))

/-- One iteration of the loading loop of `MutualTransaction`:
`v.Data, v.Exists = m.store[key]; oldContents[key] = v`. -/
def loadEntry (store : GoMap Bytes) (oldContents : GoMap Value) (key : String) :
    GoMap Value :=
  let (data, ok) := index store key
  oldContents.insert key ⟨data, ok⟩

/-- The loading loop of `MutualTransaction`, `for _, key := range keys`, starting
from the empty map made by `make`. -/
def loadContents (store : GoMap Bytes) (keys : List String) : GoMap Value :=
  keys.foldl (loadEntry store) ∅

/-- One iteration of the writing loop of `MutualTransaction`. -/
def writeEntry (store : GoMap Bytes) (key : String) (v : Value) : GoMap Bytes :=
  if v.Exists then store.insert key v.Data else store.erase key

/-- The writing loop of `MutualTransaction`, `for key, v := range data`, over the
entries of `data` in the order the map lists them; a nil map has no entries. -/
def writeContents (store : GoMap Bytes) (data : Option (GoMap Value)) : GoMap Bytes :=
  match data with
  | none => store
  | some d => d.entries.foldl (fun s e => writeEntry s e.1 e.2) store

/-- `MutualTransaction`: snapshot the keys, run the callback, and on success
write every entry of the returned map. Returns the store after the call and the
triple (old contents, new contents, error), as they are when the callback writes
nothing in place; `Mem.MutualTransaction` is the same method with the memory. -/
def Memstore.MutualTransaction (m : Memstore) (keys : List String)
    (op : MutualTransactionOperation) :
    Memstore × (GoMap Value × Option (GoMap Value) × Option GoError) :=
  let oldContents := loadContents m.store keys
  let (data, err) := op oldContents
  if err.isSome then
    (m, (oldContents, none, err))
  else
    (⟨writeContents m.store data⟩, (oldContents, data, none))

/-- An example object: a counter stored as one byte. -/
def counter (n : Nat) : Marshaler := ⟨[UInt8.ofNat n]⟩

/-- An example callback that always fails, with the error `errors.New msg`. -/
def failingOp (msg : String) : TransactionOperation := fun old _ =>
  (old, false, some (.new msg))

/-- An example callback that stores fixed bytes whatever the key held. -/
def setOp (newData : Bytes) : TransactionOperation := fun _ _ =>
  (newData, false, none)

/-- An example callback that asks for deletion and hands back `newData` with it. -/
def deleteOp (newData : Bytes) : TransactionOperation := fun _ _ =>
  (newData, true, none)

/-- An example multi-key callback that ignores its input and returns the fixed
map `data`. -/
def constMutualOp (data : GoMap Value) : MutualTransactionOperation := fun _ =>
  (some data, none)

/-- An example store: `"a"` holds the byte 1 and `"b"` holds no bytes. -/
def exampleStore : Memstore :=
  ((MakeMemstore.SetBytes "a" [1]).1.SetBytes "b" []).1

/-- An example of returned contents: delete `"a"`, write `"c"`. -/
def exampleContents : GoMap Value :=
  AList.insert "c" ⟨[7], true⟩ (AList.insert "a" ⟨[], false⟩ ∅)

/-! ## Typed access -/

/-- Modelled from the spec: the Unmarshaler capability ("populate self from
bytes, fail with `DecodeError` on malformed input"), whose declaration is outside
`memstore.go`. The type `τ` is the state of the target object; `Unmarshal` takes
the state before the call and the bytes to the state after it and an error. -/
structure Unmarshaler (τ : Type) where
  Unmarshal : τ → Bytes → τ × Option GoError

/-- `Get`: `GetBytes`, and when it returned no error, `Unmarshal` of the bytes on
the target. Returns the target after the call and the error. -/
def Memstore.Get {τ : Type} (m : Memstore) (key : String)
    (loadIntoThisObject : Unmarshaler τ) (target : τ) : τ × Option GoError :=
  let (data, err) := m.GetBytes key
  if err.isSome then
    (target, err)
  else
    loadIntoThisObject.Unmarshal target data

/-- `SetInterface`: encode the object, and store the bytes when the encoder
returned no error. The parameter `jsonMarshal` is `json.Marshal` of the standard
library, any function from objects to bytes and an error. -/
def Memstore.SetInterface {α : Type} (jsonMarshal : α → Bytes × Option GoError)
    (m : Memstore) (key : String) (objectToStore : α) : Memstore × Option GoError :=
  let (data, err) := jsonMarshal objectToStore
  if err.isSome then
    (m, Wrapf err (setInterfaceErr ++ " Key: " ++ key))
  else
    m.SetBytes key data

/-! ## Histories of calls -/

/-- One completed call of a method that takes the lock on the store, with its
arguments. `Get` and `GetInterface` reach the store only through `GetBytes`. -/
inductive Call (α : Type) where
  | SetBytes (key : String) (data : Bytes)
  | Set (key : String) (objectToStore : Marshaler)
  | SetInterface (key : String) (objectToStore : α)
  | Delete (key : String)
  | GetBytes (key : String)
  | Transaction (key : String) (op : TransactionOperation)
  | MutualTransaction (keys : List String) (op : MutualTransactionOperation)

/-- The store after one call. `GetBytes` has no statement that writes
`m.store`. -/
def Call.run {α : Type} (jsonMarshal : α → Bytes × Option GoError) (m : Memstore) :
    Call α → Memstore
  | .SetBytes key data => (m.SetBytes key data).1
  | .Set key objectToStore => (m.Set key objectToStore).1
  | .SetInterface key objectToStore => (m.SetInterface jsonMarshal key objectToStore).1
  | .Delete key => (m.Delete key).1
  | .GetBytes _ => m
  | .Transaction key op => (m.Transaction key op).1
  | .MutualTransaction keys op => (m.MutualTransaction keys op).1

/-- Whether a call, made on the store `m`, executes an assignment
`m.store[k] = ...` for the key `k`: a `SetBytes` or `Set` of `k`, a `SetInterface`
of `k` whose encoder succeeds, a `Transaction` on `k` whose callback succeeds and
does not ask for deletion, a `MutualTransaction` whose callback succeeds and
returns an entry for `k` with `Exists` true. -/
def Call.writes {α : Type} (jsonMarshal : α → Bytes × Option GoError) (m : Memstore)
    (k : String) : Call α → Bool
  | .SetBytes key _ => decide (key = k)
  | .Set key _ => decide (key = k)
  | .SetInterface key objectToStore =>
    decide (key = k) && (jsonMarshal objectToStore).2.isNone
  | .Delete _ => false
  | .GetBytes _ => false
  | .Transaction key op =>
    let r := op (index m.store key).1 (index m.store key).2
    decide (key = k) && r.2.2.isNone && !r.2.1
  | .MutualTransaction keys op =>
    let r := op (loadContents m.store keys)
    r.2.isNone &&
      match r.1 with
      | none => false
      | some data =>
        match data.lookup k with
        | none => false
        | some v => v.Exists

/-- The store after a sequence of calls, made one after the other. -/
def runCalls {α : Type} (jsonMarshal : α → Bytes × Option GoError) (m : Memstore) :
    List (Call α) → Memstore
  | [] => m
  | c :: cs => runCalls jsonMarshal (c.run jsonMarshal m) cs

/-- No call of the sequence, made from the store `m` on, writes the key `k`. -/
def neverWritten {α : Type} (jsonMarshal : α → Bytes × Option GoError) (m : Memstore)
    (k : String) : List (Call α) → Bool
  | [] => true
  | c :: cs =>
    !(c.writes jsonMarshal m k) && neverWritten jsonMarshal (c.run jsonMarshal m) k cs

/-! ## One key through the multi-key transaction -/

/-- The multi-key callback that does on the one key `key` what the single-key
callback `op` does: it reads the snapshot entry of `key` (the zero `Value` if
there is none), runs `op` on it, fails with the error of `op`, and otherwise
returns the one-entry map from `key` to the new data, existing unless `op` asked
for deletion. -/
def liftOp (key : String) (op : TransactionOperation) : MutualTransactionOperation :=
  fun oldByKey =>
    let v := (oldByKey.lookup key).getD ⟨[], false⟩
    let (newData, isDeletion, err) := op v.Data v.Exists
    if err.isSome then
      (none, err)
    else
      (some (AList.singleton key ⟨newData, !isDeletion⟩), none)

/-- The multi-key callback that returns its input snapshot unchanged. -/
def identityOp : MutualTransactionOperation := fun oldByKey =>
  (some oldByKey, none)

/-- An example encoder: a byte sequence encodes as itself, except that the empty
one is refused. -/
def exampleMarshal : Bytes → Bytes × Option GoError := fun obj =>
  match obj with
  | [] => ([], some (.new "unsupported value"))
  | _ => (obj, none)

/-- An example Unmarshaler: the target keeps the bytes it was last given and
never fails. -/
def keepBytes : Unmarshaler Bytes := ⟨fun _ data => (data, none)⟩

/-- An example history: write `"a"`, fail to encode for `"z"`, delete through a
transaction on `"z"`, read `"z"`, and run a failing transaction on `"z"`. -/
def exampleCalls : List (Call Bytes) :=
  [.SetBytes "a" [1], .SetInterface "z" [], .Transaction "z" (deleteOp [9]),
    .GetBytes "z", .Transaction "z" (failingOp "boom"),
    .MutualTransaction ["z"] (constMutualOp exampleContents)]

/-! ## Slices as references

The definitions above take a `[]byte` for the bytes it shows. To say who shares
memory with whom, this section reads the same statements of `memstore.go` with a
`[]byte` taken for what Go passes around: a slice header that points into a
backing array held in memory. No method of the store reads or writes an element
of a slice, so none of them takes or returns the memory. -/

/-- A Go slice header: the address of its backing array, the offset of its first
element in it, and its length. The capacity is left out: nothing in `memstore.go`
appends to a slice. -/
structure Slice where
  array : Nat
  off : Nat
  len : Nat
  deriving DecidableEq, Repr

/-- The memory: what each backing array holds. -/
abbrev Heap := Nat → List UInt8

/-- The nil slice, which has no elements. -/
def Slice.nil : Slice := ⟨0, 0, 0⟩

/-- The bytes a slice shows in a memory. -/
def Slice.bytes (h : Heap) (s : Slice) : Bytes :=
  ((h s.array).drop s.off).take s.len

/-- The memory after a caller's assignment `s[i] = b`. An index outside the
slice makes Go stop the program, and nothing is written. -/
def Slice.set (h : Heap) (s : Slice) (i : Nat) (b : UInt8) : Heap :=
  if i < s.len then
    Function.update h s.array ((h s.array).set (s.off + i) b)
  else h

namespace Ref

/-- The store, its map holding slice headers. -/
structure Memstore where
  store : GoMap Slice

/-- The snapshot of one key, its data a slice header. -/
structure Value where
  Data : Slice
  Exists : Bool
  deriving DecidableEq, Repr

/-- The callback of `Transaction` over slice headers. -/
abbrev TransactionOperation := Slice → Bool → Slice × Bool × Option GoError

/-- The two-result map read `v, ok = m[key]`: the nil slice and `false` when the
key is absent. -/
def index (m : GoMap Slice) (key : String) : Slice × Bool :=
  match m.lookup key with
  | some data => (data, true)
  | none => (Slice.nil, false)

/-- A new store with an empty map. -/
def MakeMemstore : Memstore := ⟨∅⟩

/-- `SetBytes`: `m.store[key] = data; return nil`. The header is stored as it
is. -/
def Memstore.SetBytes (m : Memstore) (key : String) (data : Slice) :
    Memstore × Option GoError :=
  (⟨m.store.insert key data⟩, none)

/-- `GetBytes`: `data, ok := m.store[key]`, and `return data, nil` when the key
is present. The header is returned as it is. -/
def Memstore.GetBytes (m : Memstore) (key : String) : Slice × Option GoError :=
  let (data, ok) := index m.store key
  if !ok then
    (Slice.nil, Wrapf (some (.new objectNotFoundErr)) ("Key " ++ key))
  else
    (data, none)

/-- `Transaction`, as above, over slice headers. -/
def Memstore.Transaction (m : Memstore) (key : String) (op : TransactionOperation) :
    Memstore × (Slice × Bool × Option GoError) :=
  let (old, existed) := index m.store key
  let (newData, deletion, err) := op old existed
  if err.isSome then
    (m, (Slice.nil, existed, Wrapf err ("Key: " ++ key)))
  else if deletion then
    (⟨m.store.erase key⟩, (old, existed, none))
  else
    (⟨m.store.insert key newData⟩, (old, existed, none))

/-- One iteration of the loading loop of `MutualTransaction`, over slice
headers. -/
def loadEntry (store : GoMap Slice) (oldContents : GoMap Value) (key : String) :
    GoMap Value :=
  let (data, ok) := index store key
  oldContents.insert key ⟨data, ok⟩

/-- The loading loop of `MutualTransaction`, over slice headers. -/
def loadContents (store : GoMap Slice) (keys : List String) : GoMap Value :=
  keys.foldl (loadEntry store) ∅

/-- The bytes the store holds for a key in a memory: those its stored slice
shows there. -/
def Memstore.holds (m : Memstore) (h : Heap) (key : String) : Option Bytes :=
  (m.store.lookup key).map (Slice.bytes h)

/-- An example memory: the array at address 1 holds the bytes 1, 2, 3, every
other array is empty. -/
def exampleHeap : Heap := fun a => if a = 1 then [1, 2, 3] else []

/-- An example slice: the whole of the array at address 1. -/
def exampleSlice : Slice := ⟨1, 0, 3⟩

/-- An example callback over slice headers that keeps what the key holds. -/
def keepOp : TransactionOperation := fun old _ => (old, false, none)

end Ref

/-! ## Callbacks in memory

A callback of `Transaction` is handed the slice that the store holds, and a
callback of `MutualTransaction` the snapshot map that the method later returns,
its values carrying the stored slices. Either may assign to the elements of
those slices, and the second may assign into the map. Here a callback therefore
takes the memory and returns the memory as it leaves it, and the multi-key
callback also returns the snapshot map as it leaves it. The methods themselves
write the store's map and nothing else. -/

namespace Ref

/-- `Delete`: `delete(m.store, key); return nil`, over slice headers. -/
def Memstore.Delete (m : Memstore) (key : String) : Memstore × Option GoError :=
  (⟨m.store.erase key⟩, none)

/-- One iteration of the writing loop of `MutualTransaction`, over slice
headers. -/
def writeEntry (store : GoMap Slice) (key : String) (v : Value) : GoMap Slice :=
  if v.Exists then store.insert key v.Data else store.erase key

/-- The writing loop of `MutualTransaction`, `for key, v := range data`, over
slice headers; a nil map has no entries. -/
def writeContents (store : GoMap Slice) (data : Option (GoMap Value)) : GoMap Slice :=
  match data with
  | none => store
  | some d => d.entries.foldl (fun s e => writeEntry s e.1 e.2) store

/-- The entry of a key in a map that may be nil. -/
def find (data : Option (GoMap Value)) (k : String) : Option Value :=
  match data with
  | none => none
  | some d => d.lookup k

end Ref

namespace Mem

/-- The callback of `Transaction`: from the memory, the stored slice and the
presence to the memory it leaves, the new slice, the deletion flag and an
error. -/
abbrev TransactionOperation :=
  Heap → Slice → Bool → Heap × (Slice × Bool × Option GoError)

/-- The callback of `MutualTransaction`: from the memory and the snapshot map to
the memory and the snapshot map as it leaves them, the new contents (possibly a
nil map) and an error. -/
abbrev MutualTransactionOperation :=
  Heap → GoMap Ref.Value →
    (Heap × GoMap Ref.Value) × (Option (GoMap Ref.Value) × Option GoError)

/-- `Transaction`: `old, existed = m.store[key]`, then the callback on them, then
`return nil, existed, Wrapf(err)` on an error, and otherwise the deletion or the
assignment of the key and `return old, existed, nil`. Returns the store and the
memory after the call, and the three results. -/
def Transaction (m : Ref.Memstore) (h : Heap) (key : String) (op : TransactionOperation) :
    (Ref.Memstore × Heap) × (Slice × Bool × Option GoError) :=
  let (old, existed) := Ref.index m.store key
  let (h2, newData, deletion, err) := op h old existed
  if err.isSome then
    ((m, h2), (Slice.nil, existed, Wrapf err ("Key: " ++ key)))
  else if deletion then
    ((⟨m.store.erase key⟩, h2), (old, existed, none))
  else
    ((⟨m.store.insert key newData⟩, h2), (old, existed, none))

/-- `MutualTransaction`: the loading loop, then the callback on the map it
built, then `return oldContents, nil, err` on an error, and otherwise the writing
loop and `return oldContents, data, nil`; `oldContents` is the map the callback
was given, as the callback left it. Returns the store and the memory after the
call, and the three results. -/
def MutualTransaction (m : Ref.Memstore) (h : Heap) (keys : List String)
    (op : MutualTransactionOperation) :
    (Ref.Memstore × Heap) × (GoMap Ref.Value × Option (GoMap Ref.Value) × Option GoError) :=
  let oldContents := Ref.loadContents m.store keys
  let ((h2, oldAfter), (data, err)) := op h oldContents
  if err.isSome then
    ((m, h2), (oldAfter, none, err))
  else
    ((⟨Ref.writeContents m.store data⟩, h2), (oldAfter, data, none))

/-- An example store: `"a"` holds the example slice. -/
def oneStore : Ref.Memstore := (Ref.MakeMemstore.SetBytes "a" Ref.exampleSlice).1

/-- An example store: `"a"` and `"b"` were both given the example slice. -/
def sharedStore : Ref.Memstore := (oneStore.SetBytes "b" Ref.exampleSlice).1

/-- An example callback: `old[0] = 9; return nil, false, errors.New("boom")`. -/
def failInPlace : TransactionOperation := fun h old _ =>
  (Slice.set h old 0 9, (Slice.nil, false, some (.new "boom")))

/-- An example callback that fails without writing anything. -/
def failOnly : TransactionOperation := fun h old _ =>
  (h, (old, false, some (.new "boom")))

/-- An example callback: `old[0]++; return old, false, nil`. -/
def incrementInPlace : TransactionOperation := fun h old _ =>
  (Slice.set h old 0 ((old.bytes h).headD 0 + 1), (old, false, none))

/-- An example callback: return a new one-byte slice, in the array at `addr`,
holding the first old byte plus one; the old slice is not written. -/
def incrementFresh (addr : Nat) : TransactionOperation := fun h old _ =>
  (Function.update h addr [(old.bytes h).headD 0 + 1], (⟨addr, 0, 1⟩, false, none))

/-- An example callback that asks for deletion and writes nothing. -/
def deleteOnly : TransactionOperation := fun h _ _ =>
  (h, (Slice.nil, true, none))

/-- The slice of the entry of `"a"` in a snapshot, nil if there is none. -/
def dataOfA (o : GoMap Ref.Value) : Slice :=
  ((o.lookup "a").getD ⟨Slice.nil, false⟩).Data

/-- An example multi-key callback:
`o["a"].Data[0] = 9; o["q"] = Value{nil, true}; return nil, errors.New("boom")`. -/
def failAfterWrites : MutualTransactionOperation := fun h o =>
  ((Slice.set h (dataOfA o) 0 9, o.insert "q" ⟨Slice.nil, true⟩),
    (none, some (.new "boom")))

/-- An example multi-key callback that fails without writing anything. -/
def failOnlyMutual : MutualTransactionOperation := fun h o =>
  ((h, o), (some o, some (.new "boom")))

/-- An example multi-key callback: `o["a"].Data[0] = 9`, then return a new map
that only asks for `"c"` to be deleted. -/
def writeAndReturnOther : MutualTransactionOperation := fun h o =>
  ((Slice.set h (dataOfA o) 0 9, o),
    (some (AList.singleton "c" ⟨Slice.nil, false⟩), none))

/-- An example multi-key callback:
`o["a"] = Value{s, true}; o["q"] = Value{nil, true}; return o, nil`, with `s` the
first two bytes of the array at address 1. -/
def returnMutated : MutualTransactionOperation := fun h o =>
  ((h, (o.insert "a" ⟨⟨1, 0, 2⟩, true⟩).insert "q" ⟨Slice.nil, true⟩),
    (some ((o.insert "a" ⟨⟨1, 0, 2⟩, true⟩).insert "q" ⟨Slice.nil, true⟩), none))

/-- An example multi-key callback that writes nothing and returns the fixed map
`data`. -/
def constOp (data : Option (GoMap Ref.Value)) : MutualTransactionOperation := fun h o =>
  ((h, o), (data, none))

/-- An example of returned contents: delete `"a"`, give `"c"` the first two bytes
of the array at address 1. -/
def exampleData : GoMap Ref.Value :=
  AList.insert "c" ⟨⟨1, 0, 2⟩, true⟩ (AList.insert "a" ⟨Slice.nil, false⟩ ∅)

end Mem

/-! ## Reading a map -/

theorem index_eq (m : GoMap Bytes) (key : String) :
    index m key = ((m.lookup key).getD [], (m.lookup key).isSome) := by
  unfold index
  cases m.lookup key <;> rfl

theorem Wrapf_some (e : GoError) (msg : String) :
    Wrapf (some e) msg = some (.withMessage e msg) := rfl

/-- The method `Transaction` in terms of the three components of the callback's
result. -/
theorem Transaction_eq (m : Memstore) (key : String) (op : TransactionOperation) :
    m.Transaction key op =
      let old := (m.store.lookup key).getD []
      let existed := (m.store.lookup key).isSome
      if (op old existed).2.2.isSome then
        (m, ([], existed, Wrapf (op old existed).2.2 ("Key: " ++ key)))
      else if (op old existed).2.1 then
        (⟨m.store.erase key⟩, (old, existed, none))
      else
        (⟨m.store.insert key (op old existed).1⟩, (old, existed, none)) := by
  unfold Memstore.Transaction
  rw [index_eq]

/-- The method `GetBytes` in terms of the lookup. -/
theorem GetBytes_eq (m : Memstore) (key : String) :
    m.GetBytes key =
      match m.store.lookup key with
      | some data => (data, none)
      | none => ([], some (.withMessage (.new objectNotFoundErr) ("Key " ++ key))) := by
  unfold Memstore.GetBytes
  rw [index_eq]
  cases m.store.lookup key <;> rfl

/-! ## Single-key transactions -/

/-- C2 as stated fails: on a store where `"a"` holds the byte 1, a callback
failing with `boom` makes `Transaction` return no bytes, not the old byte 1,
next to the old presence and the wrapped error. -/
theorem Transaction_failing_old_data_counterexample :
    exampleStore.store.lookup "a" = some [1] ∧
      (failingOp "boom" [1] true).2.2 = some (.new "boom") ∧
      (exampleStore.Transaction "a" (failingOp "boom")).2
        = ([], true, some (.withMessage (.new "boom") "Key: a")) ∧
      (exampleStore.Transaction "a" (failingOp "boom")).2
        ≠ ([1], true, some (.withMessage (.new "boom") "Key: a")) := by
  decide

/-- C2, amended: when the callback fails with the error `cause`, `Transaction`
returns no bytes, the presence of the key before the call, and `cause` wrapped
with the message `Key: ` followed by the key. -/
theorem Transaction_failing_result (m : Memstore) (key : String)
    (op : TransactionOperation) (cause : GoError)
    (hfail : (op ((m.store.lookup key).getD []) (m.store.lookup key).isSome).2.2
      = some cause) :
    (m.Transaction key op).2
      = ([], (m.store.lookup key).isSome, some (.withMessage cause ("Key: " ++ key))) := by
  rw [Transaction_eq]
  simp [hfail, Wrapf_some]

theorem Transaction_failing_result_witness :
    (exampleStore.Transaction "a" (failingOp "boom")).2
      = ([], (exampleStore.store.lookup "a").isSome,
          some (.withMessage (.new "boom") ("Key: " ++ "a"))) :=
  Transaction_failing_result exampleStore "a" (failingOp "boom") (.new "boom") (by decide)

/-- C3: when the callback, applied to the data and presence of the key before
the call, returns `(newData, false, nil)`, a `GetBytes` of the key after the
transaction returns exactly `newData` and no error. The key may have been
absent and `newData` may be empty. -/
theorem Transaction_set_then_GetBytes (m : Memstore) (key : String)
    (op : TransactionOperation) (newData : Bytes)
    (hop : op ((m.store.lookup key).getD []) (m.store.lookup key).isSome
      = (newData, false, none)) :
    (m.Transaction key op).1.GetBytes key = (newData, none) := by
  rw [Transaction_eq, GetBytes_eq]
  simp [hop, AList.lookup_insert]

theorem Transaction_set_then_GetBytes_witness :
    (exampleStore.Transaction "z" (setOp [])).1.GetBytes "z" = ([], none) :=
  Transaction_set_then_GetBytes exampleStore "z" (setOp []) [] (by decide)

/-- C5: when the callback succeeds and signals deletion, a `GetBytes` of the key
after the transaction returns no bytes and the not-found error, whether or not
the key was present before and whatever bytes came with the deletion flag. -/
theorem Transaction_delete_then_GetBytes (m : Memstore) (key : String)
    (op : TransactionOperation)
    (hdel : (op ((m.store.lookup key).getD []) (m.store.lookup key).isSome).2.1 = true)
    (hok : (op ((m.store.lookup key).getD []) (m.store.lookup key).isSome).2.2 = none) :
    (m.Transaction key op).1.GetBytes key
      = ([], some (.withMessage (.new "object not found") ("Key " ++ key))) := by
  rw [Transaction_eq, GetBytes_eq]
  simp [hok, hdel, AList.lookup_erase, objectNotFoundErr]

theorem Transaction_delete_then_GetBytes_witness :
    (exampleStore.Transaction "a" (deleteOp [9])).1.GetBytes "a"
      = ([], some (.withMessage (.new "object not found") ("Key " ++ "a"))) :=
  Transaction_delete_then_GetBytes exampleStore "a" (deleteOp [9]) (by decide) (by decide)

/-! ## Multi-key transactions -/

/-- The method `MutualTransaction` in terms of the two components of the
callback's result. -/
theorem MutualTransaction_eq (m : Memstore) (keys : List String)
    (op : MutualTransactionOperation) :
    m.MutualTransaction keys op =
      let oldContents := loadContents m.store keys
      if (op oldContents).2.isSome then
        (m, (oldContents, none, (op oldContents).2))
      else
        (⟨writeContents m.store (op oldContents).1⟩, (oldContents, (op oldContents).1, none)) :=
  rfl

theorem loadEntry_eq (store : GoMap Bytes) (oldContents : GoMap Value) (key : String) :
    loadEntry store oldContents key
      = oldContents.insert key ⟨(store.lookup key).getD [], (store.lookup key).isSome⟩ := by
  unfold loadEntry
  rw [index_eq]

/-- What the loading loop leaves under each key, from any starting map. -/
theorem lookup_foldl_loadEntry (store : GoMap Bytes) (keys : List String) :
    ∀ (acc : GoMap Value) (k : String),
      (keys.foldl (loadEntry store) acc).lookup k
        = if k ∈ keys then
            some ⟨(store.lookup k).getD [], (store.lookup k).isSome⟩
          else acc.lookup k := by
  induction keys with
  | nil => intro acc k; simp
  | cons key ks ih =>
    intro acc k
    rw [List.foldl_cons, ih, loadEntry_eq]
    by_cases hks : k ∈ ks
    · simp [hks]
    · by_cases hk : k = key
      · subst hk
        simp [hks, AList.lookup_insert]
      · simp [hks, hk, AList.lookup_insert_ne hk]

/-- What the snapshot holds under each key. -/
theorem lookup_loadContents (store : GoMap Bytes) (keys : List String) (k : String) :
    (loadContents store keys).lookup k
      = if k ∈ keys then
          some ⟨(store.lookup k).getD [], (store.lookup k).isSome⟩
        else none := by
  unfold loadContents
  rw [lookup_foldl_loadEntry]
  simp

theorem lookup_writeEntry_self (store : GoMap Bytes) (key : String) (v : Value) :
    (writeEntry store key v).lookup key = if v.Exists then some v.Data else none := by
  unfold writeEntry
  cases v.Exists
  · simp [AList.lookup_erase]
  · simp [AList.lookup_insert]

theorem lookup_writeEntry_ne (store : GoMap Bytes) (key : String) (v : Value)
    (k : String) (hk : k ≠ key) :
    (writeEntry store key v).lookup k = store.lookup k := by
  unfold writeEntry
  cases v.Exists
  · simp [AList.lookup_erase_ne hk]
  · simp [AList.lookup_insert_ne hk]

/-- What the writing loop leaves under each key, when no key is listed twice. -/
theorem lookup_foldl_writeEntry (entries : List (Sigma fun _ : String => Value)) :
    entries.NodupKeys → ∀ (store : GoMap Bytes) (k : String),
      (entries.foldl (fun s e => writeEntry s e.1 e.2) store).lookup k
        = match entries.dlookup k with
          | some v => if v.Exists then some v.Data else none
          | none => store.lookup k := by
  induction entries with
  | nil => intro _ store k; simp
  | cons e es ih =>
    intro hnd store k
    have hnd2 := List.nodupKeys_cons.1 hnd
    rw [List.foldl_cons, ih hnd2.2]
    by_cases hk : k = e.1
    · subst hk
      have hnone : List.dlookup e.1 es = none := List.dlookup_eq_none.2 hnd2.1
      obtain ⟨key, v⟩ := e
      rw [hnone, List.dlookup_cons_eq]
      exact lookup_writeEntry_self store key v
    · rw [List.dlookup_cons_ne es e hk]
      cases List.dlookup k es with
      | none => exact lookup_writeEntry_ne store e.1 e.2 k hk
      | some v => rfl

/-- What the writing loop leaves under each key, for a returned map. -/
theorem lookup_writeContents (store : GoMap Bytes) (data : GoMap Value) (k : String) :
    (writeContents store (some data)).lookup k
      = match data.lookup k with
        | some v => if v.Exists then some v.Data else none
        | none => store.lookup k :=
  lookup_foldl_writeEntry data.entries data.nodupKeys store k

/-! ## Raw byte access -/

/-- C9: `SetBytes` returns a nil error, and a `GetBytes` of the same key on the
store it leaves returns exactly the bytes that were set and a nil error,
whatever the store held before and also for the empty byte sequence. -/
theorem SetBytes_then_GetBytes (m : Memstore) (key : String) (data : Bytes) :
    (m.SetBytes key data).2 = none ∧
      (m.SetBytes key data).1.GetBytes key = (data, none) := by
  refine ⟨rfl, ?_⟩
  rw [GetBytes_eq]
  simp [Memstore.SetBytes, AList.lookup_insert]

/-- C10: `Delete` returns a nil error, and a `GetBytes` of the same key on the
store it leaves returns no bytes and the not-found error, whether or not the key
was present before. -/
theorem Delete_then_GetBytes (m : Memstore) (key : String) :
    (m.Delete key).2 = none ∧
      (m.Delete key).1.GetBytes key
        = ([], some (.withMessage (.new "object not found") ("Key " ++ key))) := by
  refine ⟨rfl, ?_⟩
  rw [GetBytes_eq]
  simp [Memstore.Delete, AList.lookup_erase, objectNotFoundErr]

/-! ## Keys that were never written -/

/-- The method `SetInterface` in terms of the two components of the encoder's
result. -/
theorem SetInterface_eq {α : Type} (jsonMarshal : α → Bytes × Option GoError)
    (m : Memstore) (key : String) (objectToStore : α) :
    m.SetInterface jsonMarshal key objectToStore =
      if (jsonMarshal objectToStore).2.isSome then
        (m, Wrapf (jsonMarshal objectToStore).2 (setInterfaceErr ++ " Key: " ++ key))
      else
        (⟨m.store.insert key (jsonMarshal objectToStore).1⟩, none) :=
  rfl

/-- What the writing loop leaves under each key, for a returned map or nil. -/
theorem lookup_writeContents_option (store : GoMap Bytes) (data : Option (GoMap Value))
    (k : String) :
    (writeContents store data).lookup k
      = match data with
        | none => store.lookup k
        | some d =>
          match d.lookup k with
          | some v => if v.Exists then some v.Data else none
          | none => store.lookup k := by
  cases data with
  | none => rfl
  | some d => exact lookup_writeContents store d k

/-- A call that does not write an absent key leaves it absent. -/
theorem lookup_run_of_not_writes {α : Type} (jsonMarshal : α → Bytes × Option GoError)
    (m : Memstore) (k : String) (c : Call α) (habs : m.store.lookup k = none)
    (hw : c.writes jsonMarshal m k = false) :
    (c.run jsonMarshal m).store.lookup k = none := by
  cases c with
  | SetBytes key data =>
    have hk : k ≠ key := fun h => by simp [Call.writes, h] at hw
    simp [Call.run, Memstore.SetBytes, AList.lookup_insert_ne hk, habs]
  | Set key objectToStore =>
    have hk : k ≠ key := fun h => by simp [Call.writes, h] at hw
    simp [Call.run, Memstore.Set, Memstore.SetBytes, AList.lookup_insert_ne hk, habs]
  | SetInterface key objectToStore =>
    simp only [Call.run, SetInterface_eq]
    cases herr : (jsonMarshal objectToStore).2 with
    | some e => simpa using habs
    | none =>
      have hk : k ≠ key := fun h => by simp [Call.writes, h, herr] at hw
      simp [AList.lookup_insert_ne hk, habs]
  | Delete key =>
    by_cases hk : k = key
    · subst hk
      simp [Call.run, Memstore.Delete, AList.lookup_erase]
    · simp [Call.run, Memstore.Delete, AList.lookup_erase_ne hk, habs]
  | GetBytes key => exact habs
  | Transaction key op =>
    simp only [Call.run, Transaction_eq]
    simp only [Call.writes, index_eq] at hw
    cases herr : (op ((m.store.lookup key).getD []) (m.store.lookup key).isSome).2.2 with
    | some e => simpa using habs
    | none =>
      by_cases hk : k = key
      · subst hk
        cases hdel : (op ((m.store.lookup k).getD []) (m.store.lookup k).isSome).2.1 with
        | true => simp [AList.lookup_erase]
        | false => simp [herr, hdel] at hw
      · cases hdel : (op ((m.store.lookup key).getD []) (m.store.lookup key).isSome).2.1 with
        | true => simp [AList.lookup_erase_ne hk, habs]
        | false => simp [AList.lookup_insert_ne hk, habs]
  | MutualTransaction keys op =>
    simp only [Call.run, MutualTransaction_eq]
    simp only [Call.writes] at hw
    cases herr : (op (loadContents m.store keys)).2 with
    | some e => simpa using habs
    | none =>
      simp only [Option.isSome_none, Bool.false_eq_true, if_false]
      rw [lookup_writeContents_option]
      cases hdata : (op (loadContents m.store keys)).1 with
      | none => exact habs
      | some d =>
        cases hv : d.lookup k with
        | none => simpa [hv] using habs
        | some v =>
          have hex : v.Exists = false := by simpa [herr, hdata, hv] using hw
          simp [hv, hex]

/-- A key that is absent and that no call of a history writes is absent after
the history. -/
theorem lookup_runCalls_of_neverWritten {α : Type}
    (jsonMarshal : α → Bytes × Option GoError) (k : String) (calls : List (Call α)) :
    ∀ m : Memstore, m.store.lookup k = none →
      neverWritten jsonMarshal m k calls = true →
      (runCalls jsonMarshal m calls).store.lookup k = none := by
  induction calls with
  | nil => intro m habs _; exact habs
  | cons c cs ih =>
    intro m habs hnw
    simp only [neverWritten, Bool.and_eq_true, Bool.not_eq_true'] at hnw
    exact ih (c.run jsonMarshal m)
      (lookup_run_of_not_writes jsonMarshal m k c habs hnw.1) hnw.2

/-- C11: on a new store `GetBytes` of any key returns no bytes and the not-found
error; and after any history of calls on a new store, none of which wrote the
key, `GetBytes` of the key still returns no bytes and the not-found error. That
error wraps `object not found` with the key: its text is `Key `, the key, a colon
and `object not found`. -/
theorem GetBytes_never_written {α : Type} (jsonMarshal : α → Bytes × Option GoError)
    (k : String) (calls : List (Call α))
    (hnw : neverWritten jsonMarshal MakeMemstore k calls = true) :
    MakeMemstore.GetBytes k
        = ([], some (.withMessage (.new "object not found") ("Key " ++ k))) ∧
      (runCalls jsonMarshal MakeMemstore calls).GetBytes k
        = ([], some (.withMessage (.new "object not found") ("Key " ++ k))) ∧
      (GoError.withMessage (.new "object not found") ("Key " ++ k)).Error
        = "Key " ++ k ++ ": " ++ "object not found" ∧
      (GoError.withMessage (.new "object not found") ("Key " ++ k)).Cause
        = .new "object not found" := by
  have hnew : MakeMemstore.store.lookup k = none := AList.lookup_empty k
  refine ⟨?_, ?_, rfl, rfl⟩
  · rw [GetBytes_eq, hnew]
    rfl
  · rw [GetBytes_eq, lookup_runCalls_of_neverWritten jsonMarshal k calls MakeMemstore hnew hnw]
    rfl

theorem GetBytes_never_written_witness :
    (runCalls exampleMarshal MakeMemstore exampleCalls).GetBytes "z"
      = ([], some (.withMessage (.new "object not found") ("Key " ++ "z"))) :=
  (GetBytes_never_written exampleMarshal "z" exampleCalls (by decide)).2.1

/-! ## Typed access -/

/-- The method `Get` in terms of the lookup. -/
theorem Get_eq {τ : Type} (m : Memstore) (key : String) (u : Unmarshaler τ) (target : τ) :
    m.Get key u target =
      match m.store.lookup key with
      | some data => u.Unmarshal target data
      | none => (target, some (.withMessage (.new objectNotFoundErr) ("Key " ++ key))) := by
  unfold Memstore.Get
  rw [GetBytes_eq]
  cases m.store.lookup key <;> rfl

/-- C12: `Set` returns a nil error and leaves exactly `obj.Marshal()` under the
key, so that a following `Get` of the key is the call of the target's `Unmarshal`
on those bytes, result and all; and `Get` of an absent key returns the not-found
error and the target as it was, whatever the target's `Unmarshal` would do. -/
theorem Set_then_Get {τ : Type} (m : Memstore) (key : String) (obj : Marshaler)
    (u : Unmarshaler τ) (target : τ) :
    (m.Set key obj).2 = none ∧
      (m.Set key obj).1.store.lookup key = some obj.Marshal ∧
      (m.Set key obj).1.Get key u target = u.Unmarshal target obj.Marshal ∧
      (m.store.lookup key = none →
        m.Get key u target
          = (target, some (.withMessage (.new "object not found") ("Key " ++ key)))) := by
  have hset : (m.Set key obj).1.store.lookup key = some obj.Marshal := by
    simp [Memstore.Set, Memstore.SetBytes, AList.lookup_insert]
  refine ⟨rfl, hset, ?_, ?_⟩
  · rw [Get_eq, hset]
  · intro habs
    rw [Get_eq, habs]
    rfl

theorem Set_then_Get_witness :
    (exampleStore.Set "a" (counter 5)).1.Get "a" keepBytes [] = ([5], none) ∧
      exampleStore.Get "z" keepBytes [3]
        = ([3], some (.withMessage (.new "object not found") ("Key " ++ "z"))) :=
  ⟨(Set_then_Get exampleStore "a" (counter 5) keepBytes []).2.2.1.trans (by decide),
    (Set_then_Get exampleStore "z" (counter 5) keepBytes [3]).2.2.2 (by decide)⟩

/-- C13: for any encoder, when encoding the object fails with the error `cause`,
`SetInterface` returns `cause` wrapped with the message `SetInterface error Key: `
followed by the key, and the store is the store before the call, so the key
keeps what it held; when encoding succeeds with the bytes `b`, `SetInterface`
returns a nil error and the key then holds exactly `b`. -/
theorem SetInterface_result {α : Type} (jsonMarshal : α → Bytes × Option GoError)
    (m : Memstore) (key : String) (obj : α) :
    (∀ cause, (jsonMarshal obj).2 = some cause →
        m.SetInterface jsonMarshal key obj
            = (m, some (.withMessage cause ("SetInterface error Key: " ++ key))) ∧
          (m.SetInterface jsonMarshal key obj).1.store.lookup key = m.store.lookup key) ∧
      (∀ b, jsonMarshal obj = (b, none) →
        (m.SetInterface jsonMarshal key obj).2 = none ∧
          (m.SetInterface jsonMarshal key obj).1.store.lookup key = some b ∧
          (m.SetInterface jsonMarshal key obj).1.GetBytes key = (b, none)) := by
  refine ⟨?_, ?_⟩
  · intro cause hcause
    have hres : m.SetInterface jsonMarshal key obj
        = (m, some (.withMessage cause ("SetInterface error Key: " ++ key))) := by
      rw [SetInterface_eq]
      simp [hcause, Wrapf_some, setInterfaceErr]
    exact ⟨hres, by rw [hres]⟩
  · intro b hb
    have hres : m.SetInterface jsonMarshal key obj = (⟨m.store.insert key b⟩, none) := by
      rw [SetInterface_eq]
      simp [hb]
    rw [hres, GetBytes_eq]
    simp [AList.lookup_insert]

theorem SetInterface_result_witness :
    (exampleStore.SetInterface exampleMarshal "a" []
        = (exampleStore,
            some (.withMessage (.new "unsupported value") ("SetInterface error Key: " ++ "a"))) ∧
      (exampleStore.SetInterface exampleMarshal "a" []).1.store.lookup "a"
        = exampleStore.store.lookup "a") ∧
      ((exampleStore.SetInterface exampleMarshal "a" [4]).2 = none ∧
        (exampleStore.SetInterface exampleMarshal "a" [4]).1.store.lookup "a" = some [4] ∧
        (exampleStore.SetInterface exampleMarshal "a" [4]).1.GetBytes "a" = ([4], none)) :=
  ⟨(SetInterface_result exampleMarshal exampleStore "a" []).1 (.new "unsupported value") rfl,
    (SetInterface_result exampleMarshal exampleStore "a" [4]).2 [4] rfl⟩

/-! ## Frame of the single-key operations -/

/-- Deleting a key that a map does not have leaves the map as it is. -/
theorem erase_of_not_mem {V : Type} (s : GoMap V) (k : String) (hk : k ∉ s) :
    s.erase k = s :=
  AList.ext (List.kerase_of_not_mem_keys hk)

/-! ## Relations between the two transactions -/

/-- Two maps with the same lookups have the same entries, up to their order. -/
theorem entries_perm_of_lookup_eq {V : Type} (s t : GoMap V)
    (h : ∀ k, s.lookup k = t.lookup k) : List.Perm s.entries t.entries := by
  apply List.lookup_ext s.nodupKeys t.nodupKeys
  intro x y
  have hx := h x
  unfold AList.lookup at hx
  rw [hx]

/-- The lifted callback on the snapshot of its one key. -/
theorem liftOp_loadContents (m : Memstore) (key : String) (op : TransactionOperation) :
    liftOp key op (loadContents m.store [key]) =
      let old := (m.store.lookup key).getD []
      let existed := (m.store.lookup key).isSome
      if (op old existed).2.2.isSome then
        (none, (op old existed).2.2)
      else
        (some (AList.singleton key ⟨(op old existed).1, !(op old existed).2.1⟩), none) := by
  have hsnap : (loadContents m.store [key]).lookup key
      = some ⟨(m.store.lookup key).getD [], (m.store.lookup key).isSome⟩ := by
    rw [lookup_loadContents]
    simp
  unfold liftOp
  simp only [hsnap, Option.getD_some]

/-- The writing loop on a one-entry map is one iteration. -/
theorem writeContents_singleton (store : GoMap Bytes) (key : String) (v : Value) :
    writeContents store (some (AList.singleton key v)) = writeEntry store key v :=
  rfl

/-- C17: `Transaction` on a key with the callback `op` and `MutualTransaction` on
the one-key list with the lifted callback leave the same store; one returns a nil
error exactly when the other does; and when they succeed, the old bytes and
presence returned by `Transaction` are the snapshot entry of the key returned by
`MutualTransaction`. -/
theorem Transaction_as_MutualTransaction (m : Memstore) (key : String)
    (op : TransactionOperation) :
    (m.Transaction key op).1 = (m.MutualTransaction [key] (liftOp key op)).1 ∧
      ((m.Transaction key op).2.2.2 = none ↔
        (m.MutualTransaction [key] (liftOp key op)).2.2.2 = none) ∧
      ((m.Transaction key op).2.2.2 = none →
        (m.MutualTransaction [key] (liftOp key op)).2.1.lookup key
          = some ⟨(m.Transaction key op).2.1, (m.Transaction key op).2.2.1⟩) := by
  have hsnap : (loadContents m.store [key]).lookup key
      = some ⟨(m.store.lookup key).getD [], (m.store.lookup key).isSome⟩ := by
    rw [lookup_loadContents]
    simp
  rw [Transaction_eq, MutualTransaction_eq]
  simp only [liftOp_loadContents]
  cases herr : (op ((m.store.lookup key).getD []) (m.store.lookup key).isSome).2.2 with
  | some e => simp [herr, Wrapf_some]
  | none =>
    cases hdel : (op ((m.store.lookup key).getD []) (m.store.lookup key).isSome).2.1 with
    | true => simp [herr, hdel, hsnap, writeContents_singleton, writeEntry]
    | false => simp [herr, hdel, hsnap, writeContents_singleton, writeEntry]

/-- C18: the writing loop of `MutualTransaction` does not depend on the order in
which the entries of the returned map are visited: two listings of the same
entries, written to the same store, give stores with the same lookup under every
key, hence the same entries up to their order. -/
theorem writeContents_order_independent (store : GoMap Bytes) (d1 d2 : GoMap Value)
    (hperm : List.Perm d1.entries d2.entries) :
    (∀ k, (writeContents store (some d1)).lookup k
        = (writeContents store (some d2)).lookup k) ∧
      List.Perm (writeContents store (some d1)).entries
        (writeContents store (some d2)).entries := by
  have hlook : ∀ k, (writeContents store (some d1)).lookup k
      = (writeContents store (some d2)).lookup k := by
    intro k
    rw [lookup_writeContents, lookup_writeContents, AList.perm_lookup hperm]
  exact ⟨hlook, entries_perm_of_lookup_eq _ _ hlook⟩

theorem writeContents_order_independent_witness :
    (∀ k, (writeContents exampleStore.store (some exampleContents)).lookup k
        = (writeContents exampleStore.store
            (some (AList.insert "a" ⟨[], false⟩ (AList.insert "c" ⟨[7], true⟩ ∅)))).lookup k) ∧
      List.Perm (writeContents exampleStore.store (some exampleContents)).entries
        (writeContents exampleStore.store
          (some (AList.insert "a" ⟨[], false⟩ (AList.insert "c" ⟨[7], true⟩ ∅)))).entries :=
  writeContents_order_independent exampleStore.store exampleContents
    (AList.insert "a" ⟨[], false⟩ (AList.insert "c" ⟨[7], true⟩ ∅))
    (List.Perm.swap _ _ _)

/-- C19: `MutualTransaction` with the callback that returns its snapshot leaves
every key with the lookup it had (present keys, absent keys and keys holding no
bytes alike), hence a store with the same entries up to their order, and returns
the snapshot as both the old and the new contents, with a nil error. -/
theorem MutualTransaction_identity (m : Memstore) (keys : List String) :
    (∀ k, (m.MutualTransaction keys identityOp).1.store.lookup k = m.store.lookup k) ∧
      List.Perm (m.MutualTransaction keys identityOp).1.store.entries m.store.entries ∧
      (m.MutualTransaction keys identityOp).2
        = (loadContents m.store keys, some (loadContents m.store keys), none) := by
  have hlook : ∀ k, (m.MutualTransaction keys identityOp).1.store.lookup k
      = m.store.lookup k := by
    intro k
    have hstore : (m.MutualTransaction keys identityOp).1.store
        = writeContents m.store (some (loadContents m.store keys)) := rfl
    rw [hstore, lookup_writeContents, lookup_loadContents]
    by_cases hk : k ∈ keys
    · cases hv : m.store.lookup k <;> simp [hk]
    · simp [hk]
  exact ⟨hlook, entries_perm_of_lookup_eq _ _ hlook, rfl⟩

/-! ## Sharing of memory between the store and its callers -/

/-- A caller's assignment inside a slice changes the bytes the slice shows at
that index and nowhere else. -/
theorem bytes_set (h : Heap) (s : Slice) (i : Nat) (b : UInt8) (hi : i < s.len) :
    Slice.bytes (Slice.set h s i b) s = (Slice.bytes h s).set i b := by
  unfold Slice.bytes Slice.set
  rw [if_pos hi, Function.update_same, ← List.set_drop, List.set_take]

theorem slice_index_eq (m : GoMap Slice) (key : String) :
    Ref.index m key = ((m.lookup key).getD Slice.nil, (m.lookup key).isSome) := by
  unfold Ref.index
  cases m.lookup key <;> rfl

/-- What the loading loop over slice headers leaves under each key. -/
theorem slice_lookup_foldl_loadEntry (store : GoMap Slice) (keys : List String) :
    ∀ (acc : GoMap Ref.Value) (k : String),
      (keys.foldl (Ref.loadEntry store) acc).lookup k
        = if k ∈ keys then
            some ⟨(store.lookup k).getD Slice.nil, (store.lookup k).isSome⟩
          else acc.lookup k := by
  induction keys with
  | nil => intro acc k; simp
  | cons key ks ih =>
    intro acc k
    have hstep : Ref.loadEntry store acc key
        = acc.insert key ⟨(store.lookup key).getD Slice.nil, (store.lookup key).isSome⟩ := by
      unfold Ref.loadEntry
      rw [slice_index_eq]
    rw [List.foldl_cons, ih, hstep]
    by_cases hks : k ∈ ks
    · simp [hks]
    · by_cases hk : k = key
      · subst hk
        simp [hks, AList.lookup_insert]
      · simp [hks, hk, AList.lookup_insert_ne hk]

/-- C15 as stated fails: a store is given, under `"a"`, a slice over an array
holding 1, 2, 3, and holds those bytes. After the caller assigns 9 to the first
element of the slice that `GetBytes` returned, with no call on the store, the
store holds 9, 2, 3; after the caller instead assigns 9 to the second element of
the slice it had passed to `SetBytes`, the store holds 1, 9, 3. -/
theorem GetBytes_shares_memory_counterexample :
    (Ref.MakeMemstore.SetBytes "a" Ref.exampleSlice).1.holds Ref.exampleHeap "a"
        = some [1, 2, 3] ∧
      (Ref.MakeMemstore.SetBytes "a" Ref.exampleSlice).1.holds
          (Slice.set Ref.exampleHeap
            ((Ref.MakeMemstore.SetBytes "a" Ref.exampleSlice).1.GetBytes "a").1 0 9) "a"
        = some [9, 2, 3] ∧
      (Ref.MakeMemstore.SetBytes "a" Ref.exampleSlice).1.holds
          (Slice.set Ref.exampleHeap Ref.exampleSlice 1 9) "a"
        = some [1, 9, 3] := by
  decide

/-- C15, amended: the store keeps and hands out slice headers without copying.
After `SetBytes` of a slice, `GetBytes` returns that very header, a successful
`Transaction` returns it as the old data, and the snapshot of
`MutualTransaction` carries it; in every memory the store holds for the key
exactly the bytes that slice shows, so a caller's assignment inside the slice
changes what the store holds at that index, and a memory that agrees on the
slice's backing array leaves what the store holds as it is. -/
theorem stored_slice_is_shared (m : Ref.Memstore) (key : String) (s : Slice)
    (h : Heap) (i : Nat) (b : UInt8) (hi : i < s.len) :
    (m.SetBytes key s).1.GetBytes key = (s, none) ∧
      (∀ op : Ref.TransactionOperation, (op s true).2.2 = none →
        ((m.SetBytes key s).1.Transaction key op).2 = (s, true, none)) ∧
      (∀ keys : List String, key ∈ keys →
        (Ref.loadContents (m.SetBytes key s).1.store keys).lookup key = some ⟨s, true⟩) ∧
      (∀ h2 : Heap, (m.SetBytes key s).1.holds h2 key = some (s.bytes h2)) ∧
      (m.SetBytes key s).1.holds (Slice.set h s i b) key = some ((s.bytes h).set i b) ∧
      (∀ h2 : Heap, h2 s.array = h s.array →
        (m.SetBytes key s).1.holds h2 key = (m.SetBytes key s).1.holds h key) := by
  have hlook : (m.SetBytes key s).1.store.lookup key = some s := by
    simp [Ref.Memstore.SetBytes, AList.lookup_insert]
  have hholds : ∀ h2 : Heap, (m.SetBytes key s).1.holds h2 key = some (s.bytes h2) := by
    intro h2
    unfold Ref.Memstore.holds
    rw [hlook]
    rfl
  refine ⟨?_, ?_, ?_, hholds, ?_, ?_⟩
  · unfold Ref.Memstore.GetBytes
    rw [slice_index_eq, hlook]
    rfl
  · intro op hok
    unfold Ref.Memstore.Transaction
    rw [slice_index_eq, hlook]
    simp only [Option.getD_some, Option.isSome_some]
    rcases hop : op s true with ⟨newData, deletion, err⟩
    rw [hop] at hok
    simp only at hok
    subst hok
    cases deletion <;> rfl
  · intro keys hk
    unfold Ref.loadContents
    rw [slice_lookup_foldl_loadEntry, hlook]
    simp [hk]
  · rw [hholds, bytes_set h s i b hi]
  · intro h2 hagree
    rw [hholds, hholds]
    unfold Slice.bytes
    rw [hagree]

theorem stored_slice_is_shared_witness :
    (Ref.MakeMemstore.SetBytes "a" Ref.exampleSlice).1.GetBytes "a"
        = (Ref.exampleSlice, none) ∧
      (Ref.MakeMemstore.SetBytes "a" Ref.exampleSlice).1.holds
          (Slice.set Ref.exampleHeap Ref.exampleSlice 2 7) "a"
        = some ((Ref.exampleSlice.bytes Ref.exampleHeap).set 2 7) :=
  ⟨(stored_slice_is_shared Ref.MakeMemstore "a" Ref.exampleSlice Ref.exampleHeap 2 7
      (by decide)).1,
    (stored_slice_is_shared Ref.MakeMemstore "a" Ref.exampleSlice Ref.exampleHeap 2 7
      (by decide)).2.2.2.2.1⟩

/-! ## Single-key transactions with callbacks in memory -/

/-- The method `Transaction`, with the memory, in terms of the components of the
callback's result. -/
theorem mem_Transaction_eq (m : Ref.Memstore) (h : Heap) (key : String)
    (op : Mem.TransactionOperation) :
    Mem.Transaction m h key op =
      let old := (m.store.lookup key).getD Slice.nil
      let existed := (m.store.lookup key).isSome
      if (op h old existed).2.2.2.isSome then
        ((m, (op h old existed).1),
          (Slice.nil, existed, Wrapf (op h old existed).2.2.2 ("Key: " ++ key)))
      else if (op h old existed).2.2.1 then
        ((⟨m.store.erase key⟩, (op h old existed).1), (old, existed, none))
      else
        ((⟨m.store.insert key (op h old existed).2.1⟩, (op h old existed).1),
          (old, existed, none)) := by
  unfold Mem.Transaction
  rw [slice_index_eq]

/-- What a store holds for a key whose slice lies in an array on which two
memories agree is the same in both. -/
theorem holds_of_agree (m : Ref.Memstore) (h h2 : Heap) (k : String) (s : Slice)
    (hs : m.store.lookup k = some s) (hagree : h2 s.array = h s.array) :
    m.holds h2 k = m.holds h k := by
  unfold Ref.Memstore.holds
  rw [hs]
  simp only [Option.map_some', Slice.bytes, hagree]

/-- Whether a store holds something for a key does not depend on the memory. -/
theorem holds_isSome (m : Ref.Memstore) (h : Heap) (k : String) :
    (m.holds h k).isSome = (m.store.lookup k).isSome := by
  unfold Ref.Memstore.holds
  cases m.store.lookup k <;> rfl

/-- C1 as stated fails: `"a"` holds the bytes 1, 2, 3, and the callback assigns 9
to the first element of the slice it is handed and then fails. `Transaction`
returns a non-nil error, and the store holds 9, 2, 3 under `"a"`. -/
theorem Transaction_failing_in_place_counterexample :
    (Mem.Transaction Mem.oneStore Ref.exampleHeap "a" Mem.failInPlace).2.2.2 ≠ none ∧
      Mem.oneStore.holds Ref.exampleHeap "a" = some [1, 2, 3] ∧
      (Mem.Transaction Mem.oneStore Ref.exampleHeap "a" Mem.failInPlace).1.1.holds
          (Mem.Transaction Mem.oneStore Ref.exampleHeap "a" Mem.failInPlace).1.2 "a"
        = some [9, 2, 3] := by
  decide

/-- C1, amended: when the callback fails, `Transaction` returns a non-nil error
and writes nothing itself: the store's map is the map before the call, and the
memory is the memory the callback left. So every key has the presence it had,
and the bytes it had if the callback left the backing array of its slice as it
was; when the callback left the whole memory as it was, store and memory are
those before the call. -/
theorem Transaction_failing_writes_nothing (m : Ref.Memstore) (h : Heap) (key : String)
    (op : Mem.TransactionOperation)
    (hfail : (op h ((m.store.lookup key).getD Slice.nil)
      (m.store.lookup key).isSome).2.2.2 ≠ none) :
    (Mem.Transaction m h key op).2.2.2 ≠ none ∧
      (Mem.Transaction m h key op).1.1 = m ∧
      (Mem.Transaction m h key op).1.2
        = (op h ((m.store.lookup key).getD Slice.nil) (m.store.lookup key).isSome).1 ∧
      (∀ k, ((Mem.Transaction m h key op).1.1.holds (Mem.Transaction m h key op).1.2 k).isSome
        = (m.holds h k).isSome) ∧
      (∀ k s, m.store.lookup k = some s →
        (Mem.Transaction m h key op).1.2 s.array = h s.array →
        (Mem.Transaction m h key op).1.1.holds (Mem.Transaction m h key op).1.2 k
          = m.holds h k) ∧
      ((op h ((m.store.lookup key).getD Slice.nil) (m.store.lookup key).isSome).1 = h →
        (Mem.Transaction m h key op).1 = (m, h)) := by
  have hres : (Mem.Transaction m h key op).1
      = (m, (op h ((m.store.lookup key).getD Slice.nil) (m.store.lookup key).isSome).1) ∧
      (Mem.Transaction m h key op).2.2.2 ≠ none := by
    rw [mem_Transaction_eq]
    cases herr : (op h ((m.store.lookup key).getD Slice.nil)
        (m.store.lookup key).isSome).2.2.2 with
    | none => exact absurd herr hfail
    | some cause => simp [herr, Wrapf_some]
  have hstore : (Mem.Transaction m h key op).1.1 = m := by rw [hres.1]
  refine ⟨hres.2, hstore, by rw [hres.1], ?_, ?_, ?_⟩
  · intro k
    rw [hstore, holds_isSome, holds_isSome]
  · intro k s hs hagree
    rw [hstore]
    exact holds_of_agree m h _ k s hs hagree
  · intro hsame
    rw [hres.1, hsame]

theorem Transaction_failing_writes_nothing_witness :
    (Mem.Transaction Mem.oneStore Ref.exampleHeap "a" Mem.failOnly).2.2.2 ≠ none ∧
      (Mem.Transaction Mem.oneStore Ref.exampleHeap "a" Mem.failOnly).1
        = (Mem.oneStore, Ref.exampleHeap) ∧
      (Mem.Transaction Mem.oneStore Ref.exampleHeap "a" Mem.failInPlace).1.1 = Mem.oneStore :=
  ⟨(Transaction_failing_writes_nothing Mem.oneStore Ref.exampleHeap "a" Mem.failOnly
      (by decide)).1,
    (Transaction_failing_writes_nothing Mem.oneStore Ref.exampleHeap "a" Mem.failOnly
      (by decide)).2.2.2.2.2 rfl,
    (Transaction_failing_writes_nothing Mem.oneStore Ref.exampleHeap "a" Mem.failInPlace
      (by decide)).2.1⟩

/-- C4 as stated fails: `"a"` holds the bytes 1, 2, 3, and the callback adds one
to the first element of the slice it is handed and returns that slice. The
callback succeeds, and the old data that `Transaction` returns shows 2, 2, 3,
the bytes after the change, which the store holds too. -/
theorem Transaction_old_in_place_counterexample :
    (Mem.Transaction Mem.oneStore Ref.exampleHeap "a" Mem.incrementInPlace).2.2.2 = none ∧
      Mem.oneStore.holds Ref.exampleHeap "a" = some [1, 2, 3] ∧
      (Mem.Transaction Mem.oneStore Ref.exampleHeap "a" Mem.incrementInPlace).2.1.bytes
          (Mem.Transaction Mem.oneStore Ref.exampleHeap "a" Mem.incrementInPlace).1.2
        = [2, 2, 3] ∧
      (Mem.Transaction Mem.oneStore Ref.exampleHeap "a" Mem.incrementInPlace).1.1.holds
          (Mem.Transaction Mem.oneStore Ref.exampleHeap "a" Mem.incrementInPlace).1.2 "a"
        = some [2, 2, 3] := by
  decide

/-- C4, amended: when the callback succeeds, whether it sets or deletes,
`Transaction` returns the slice that the key held before the call (the nil slice
for an absent key), the presence of the key before the call, and a nil error.
The returned presence is true exactly when the key was in the map. The returned
slice shows the bytes the key held before the call if the callback left its
backing array as it was. -/
theorem Transaction_returns_old_slice (m : Ref.Memstore) (h : Heap) (key : String)
    (op : Mem.TransactionOperation)
    (hok : (op h ((m.store.lookup key).getD Slice.nil)
      (m.store.lookup key).isSome).2.2.2 = none) :
    (Mem.Transaction m h key op).2
        = ((m.store.lookup key).getD Slice.nil, (m.store.lookup key).isSome, none) ∧
      ((Mem.Transaction m h key op).2.2.1 = true ↔ key ∈ m.store) ∧
      (Mem.Transaction m h key op).1.2
        = (op h ((m.store.lookup key).getD Slice.nil) (m.store.lookup key).isSome).1 ∧
      (∀ s, m.store.lookup key = some s →
        (Mem.Transaction m h key op).2.1 = s ∧
          ((Mem.Transaction m h key op).1.2 s.array = h s.array →
            some ((Mem.Transaction m h key op).2.1.bytes (Mem.Transaction m h key op).1.2)
              = m.holds h key)) := by
  have hres : (Mem.Transaction m h key op).2
        = ((m.store.lookup key).getD Slice.nil, (m.store.lookup key).isSome, none) ∧
      (Mem.Transaction m h key op).1.2
        = (op h ((m.store.lookup key).getD Slice.nil) (m.store.lookup key).isSome).1 := by
    rw [mem_Transaction_eq]
    cases hdel : (op h ((m.store.lookup key).getD Slice.nil)
        (m.store.lookup key).isSome).2.2.1 <;> simp [hok, hdel]
  refine ⟨hres.1, ?_, hres.2, ?_⟩
  · rw [hres.1]
    exact @AList.lookup_isSome String _ _ key m.store
  · intro s hs
    have hold : (Mem.Transaction m h key op).2.1 = s := by
      rw [hres.1, hs]
      rfl
    refine ⟨hold, ?_⟩
    intro hagree
    rw [hold]
    unfold Ref.Memstore.holds
    rw [hs]
    simp only [Option.map_some', Slice.bytes, hagree]

/-- C4, the example: `"a"` holds the one byte 1; `Transaction` with the callback
that returns a new slice holding the old byte plus one returns a slice showing
1, presence true and no error, and the store then holds 2 for `"a"`. -/
theorem Transaction_returns_old_slice_witness :
    (Mem.Transaction (Ref.MakeMemstore.SetBytes "a" ⟨1, 0, 1⟩).1 Ref.exampleHeap "a"
        (Mem.incrementFresh 2)).2 = (⟨1, 0, 1⟩, true, none) ∧
      (Mem.Transaction (Ref.MakeMemstore.SetBytes "a" ⟨1, 0, 1⟩).1 Ref.exampleHeap "a"
          (Mem.incrementFresh 2)).2.1.bytes
        (Mem.Transaction (Ref.MakeMemstore.SetBytes "a" ⟨1, 0, 1⟩).1 Ref.exampleHeap "a"
          (Mem.incrementFresh 2)).1.2 = [1] ∧
      (Mem.Transaction (Ref.MakeMemstore.SetBytes "a" ⟨1, 0, 1⟩).1 Ref.exampleHeap "a"
          (Mem.incrementFresh 2)).1.1.holds
        (Mem.Transaction (Ref.MakeMemstore.SetBytes "a" ⟨1, 0, 1⟩).1 Ref.exampleHeap "a"
          (Mem.incrementFresh 2)).1.2 "a" = some [2] :=
  ⟨(Transaction_returns_old_slice (Ref.MakeMemstore.SetBytes "a" ⟨1, 0, 1⟩).1
      Ref.exampleHeap "a" (Mem.incrementFresh 2) (by decide)).1.trans (by decide),
    by decide, by decide⟩

/-- C16 as stated fails: `"a"` and `"b"` were both given one slice showing 1, 2,
3, and the callback of a transaction on `"a"` adds one to the first element of
the slice it is handed. After the transaction `"b"`, a different key, holds 2,
2, 3. -/
theorem Transaction_frame_shared_counterexample :
    Mem.sharedStore.holds Ref.exampleHeap "b" = some [1, 2, 3] ∧
      (Mem.Transaction Mem.sharedStore Ref.exampleHeap "a" Mem.incrementInPlace).1.1.holds
          (Mem.Transaction Mem.sharedStore Ref.exampleHeap "a" Mem.incrementInPlace).1.2 "b"
        = some [2, 2, 3] := by
  decide

/-- C16, amended: for a key `k2` other than `k`, `SetBytes` and `Delete` on `k`
leave what `k2` holds as it was, and `Transaction` on `k`, whatever the callback
returns, leaves the presence and the slice of `k2` as they were, and its bytes
too if the callback left the backing array of that slice as it was. `Delete` of
an absent key and a deleting `Transaction` on an absent key leave the store's map
as it was, and a `GetBytes` call leaves the store as it was. -/
theorem single_key_frame_slices {α : Type} (jsonMarshal : α → Bytes × Option GoError)
    (mv : Memstore) (m : Ref.Memstore) (h : Heap) (k k2 : String) (data : Slice)
    (op : Mem.TransactionOperation) :
    (k2 ≠ k →
        (m.SetBytes k data).1.holds h k2 = m.holds h k2 ∧
          (m.Delete k).1.holds h k2 = m.holds h k2 ∧
          (Mem.Transaction m h k op).1.1.store.lookup k2 = m.store.lookup k2 ∧
          (∀ s, m.store.lookup k2 = some s →
            (Mem.Transaction m h k op).1.2 s.array = h s.array →
            (Mem.Transaction m h k op).1.1.holds (Mem.Transaction m h k op).1.2 k2
              = m.holds h k2)) ∧
      (k ∉ m.store → (m.Delete k).1 = m) ∧
      (k ∉ m.store → (op h Slice.nil false).2.2.1 = true →
        (op h Slice.nil false).2.2.2 = none →
        (Mem.Transaction m h k op).1.1 = m) ∧
      Call.run jsonMarshal mv (.GetBytes k) = mv := by
  refine ⟨?_, ?_, ?_, rfl⟩
  · intro hne
    have hlook : (Mem.Transaction m h k op).1.1.store.lookup k2 = m.store.lookup k2 := by
      rw [mem_Transaction_eq]
      cases herr : (op h ((m.store.lookup k).getD Slice.nil)
          (m.store.lookup k).isSome).2.2.2 with
      | some e => simp [herr]
      | none =>
        cases hdel : (op h ((m.store.lookup k).getD Slice.nil)
            (m.store.lookup k).isSome).2.2.1 with
        | true => simp [herr, hdel, AList.lookup_erase_ne hne]
        | false => simp [herr, hdel, AList.lookup_insert_ne hne]
    refine ⟨?_, ?_, hlook, ?_⟩
    · simp [Ref.Memstore.holds, Ref.Memstore.SetBytes, AList.lookup_insert_ne hne]
    · simp [Ref.Memstore.holds, Ref.Memstore.Delete, AList.lookup_erase_ne hne]
    · intro s hs hagree
      have hs2 : (Mem.Transaction m h k op).1.1.store.lookup k2 = some s := by
        rw [hlook, hs]
      rw [holds_of_agree _ h _ k2 s hs2 hagree]
      unfold Ref.Memstore.holds
      rw [hlook]
  · intro habs
    simp [Ref.Memstore.Delete, erase_of_not_mem m.store k habs]
  · intro habs hdel hok
    have hnone : m.store.lookup k = none := AList.lookup_eq_none.2 habs
    rw [mem_Transaction_eq]
    simp [hnone, hdel, hok, erase_of_not_mem m.store k habs]

theorem single_key_frame_slices_witness :
    ((Mem.sharedStore.SetBytes "a" ⟨1, 1, 2⟩).1.holds Ref.exampleHeap "b"
          = Mem.sharedStore.holds Ref.exampleHeap "b" ∧
        (Mem.sharedStore.Delete "a").1.holds Ref.exampleHeap "b"
          = Mem.sharedStore.holds Ref.exampleHeap "b" ∧
        (Mem.Transaction Mem.sharedStore Ref.exampleHeap "a" Mem.incrementInPlace).1.1.store.lookup
            "b" = Mem.sharedStore.store.lookup "b") ∧
      (Mem.Transaction Mem.sharedStore Ref.exampleHeap "a" (Mem.incrementFresh 2)).1.1.holds
          (Mem.Transaction Mem.sharedStore Ref.exampleHeap "a" (Mem.incrementFresh 2)).1.2 "b"
        = Mem.sharedStore.holds Ref.exampleHeap "b" ∧
      (Mem.oneStore.Delete "z").1 = Mem.oneStore ∧
      (Mem.Transaction Mem.oneStore Ref.exampleHeap "z" Mem.deleteOnly).1.1 = Mem.oneStore :=
  ⟨⟨((single_key_frame_slices exampleMarshal exampleStore Mem.sharedStore Ref.exampleHeap
        "a" "b" ⟨1, 1, 2⟩ Mem.incrementInPlace).1 (by decide)).1,
      ((single_key_frame_slices exampleMarshal exampleStore Mem.sharedStore Ref.exampleHeap
        "a" "b" ⟨1, 1, 2⟩ Mem.incrementInPlace).1 (by decide)).2.1,
      ((single_key_frame_slices exampleMarshal exampleStore Mem.sharedStore Ref.exampleHeap
        "a" "b" ⟨1, 1, 2⟩ Mem.incrementInPlace).1 (by decide)).2.2.1⟩,
    ((single_key_frame_slices exampleMarshal exampleStore Mem.sharedStore Ref.exampleHeap
        "a" "b" ⟨1, 1, 2⟩ (Mem.incrementFresh 2)).1 (by decide)).2.2.2
      Ref.exampleSlice (by decide) (by decide),
    (single_key_frame_slices exampleMarshal exampleStore Mem.oneStore Ref.exampleHeap
        "z" "b" ⟨1, 1, 2⟩ Mem.deleteOnly).2.1 (by decide),
    (single_key_frame_slices exampleMarshal exampleStore Mem.oneStore Ref.exampleHeap
        "z" "b" ⟨1, 1, 2⟩ Mem.deleteOnly).2.2.1 (by decide) rfl rfl⟩

/-! ## Multi-key transactions with callbacks in memory -/

/-- The method `MutualTransaction`, with the memory, in terms of the components
of the callback's result. -/
theorem mem_MutualTransaction_eq (m : Ref.Memstore) (h : Heap) (keys : List String)
    (op : Mem.MutualTransactionOperation) :
    Mem.MutualTransaction m h keys op =
      let r := op h (Ref.loadContents m.store keys)
      if r.2.2.isSome then
        ((m, r.1.1), (r.1.2, none, r.2.2))
      else
        ((⟨Ref.writeContents m.store r.2.1⟩, r.1.1), (r.1.2, r.2.1, none)) :=
  rfl

/-- What the snapshot over slice headers holds under each key. -/
theorem slice_lookup_loadContents (store : GoMap Slice) (keys : List String) (k : String) :
    (Ref.loadContents store keys).lookup k
      = if k ∈ keys then
          some ⟨(store.lookup k).getD Slice.nil, (store.lookup k).isSome⟩
        else none := by
  unfold Ref.loadContents
  rw [slice_lookup_foldl_loadEntry]
  simp

/-- What the writing loop over slice headers leaves under each key, when no key
is listed twice. -/
theorem slice_lookup_foldl_writeEntry (entries : List (Sigma fun _ : String => Ref.Value)) :
    entries.NodupKeys → ∀ (store : GoMap Slice) (k : String),
      (entries.foldl (fun s e => Ref.writeEntry s e.1 e.2) store).lookup k
        = match entries.dlookup k with
          | some v => if v.Exists then some v.Data else none
          | none => store.lookup k := by
  induction entries with
  | nil => intro _ store k; simp
  | cons e es ih =>
    intro hnd store k
    have hnd2 := List.nodupKeys_cons.1 hnd
    rw [List.foldl_cons, ih hnd2.2]
    by_cases hk : k = e.1
    · subst hk
      have hnone : List.dlookup e.1 es = none := List.dlookup_eq_none.2 hnd2.1
      obtain ⟨key, d, ex⟩ := e
      rw [hnone, List.dlookup_cons_eq]
      cases ex
      · simp [Ref.writeEntry, AList.lookup_erase]
      · simp [Ref.writeEntry, AList.lookup_insert]
    · rw [List.dlookup_cons_ne es e hk]
      cases List.dlookup k es with
      | none =>
        obtain ⟨key, d, ex⟩ := e
        cases ex
        · simp [Ref.writeEntry, AList.lookup_erase_ne hk]
        · simp [Ref.writeEntry, AList.lookup_insert_ne hk]
      | some v => rfl

/-- What the writing loop over slice headers leaves under each key, for a
returned map or nil. -/
theorem slice_lookup_writeContents (store : GoMap Slice) (data : Option (GoMap Ref.Value))
    (k : String) :
    (Ref.writeContents store data).lookup k
      = match Ref.find data k with
        | some v => if v.Exists then some v.Data else none
        | none => store.lookup k := by
  cases data with
  | none => rfl
  | some d => exact slice_lookup_foldl_writeEntry d.entries d.nodupKeys store k

/-- C6 as stated fails: `"a"` holds the bytes 1, 2, 3, and the callback assigns 9
to the first element of the slice in its snapshot entry for `"a"`, adds an entry
for `"q"` to the snapshot, and fails. After `MutualTransaction` on the key `"a"`
the store holds 9, 2, 3 under `"a"`, and the first result lists `"q"` and `"a"`
where the snapshot that was built lists `"a"`. -/
theorem MutualTransaction_failing_in_place_counterexample :
    (Mem.MutualTransaction Mem.oneStore Ref.exampleHeap ["a"] Mem.failAfterWrites).2.2.2
        = some (.new "boom") ∧
      Mem.oneStore.holds Ref.exampleHeap "a" = some [1, 2, 3] ∧
      (Mem.MutualTransaction Mem.oneStore Ref.exampleHeap ["a"] Mem.failAfterWrites).1.1.holds
          (Mem.MutualTransaction Mem.oneStore Ref.exampleHeap ["a"] Mem.failAfterWrites).1.2 "a"
        = some [9, 2, 3] ∧
      (Ref.loadContents Mem.oneStore.store ["a"]).keys = ["a"] ∧
      (Mem.MutualTransaction Mem.oneStore Ref.exampleHeap ["a"] Mem.failAfterWrites).2.1.keys
        = ["q", "a"] := by
  decide

/-- C6, amended: when the callback fails with the error `cause`,
`MutualTransaction` writes nothing itself: the store's map is the map before the
call and the memory is the memory the callback left; it returns the snapshot map
as the callback left it, a nil map, and `cause` itself, not wrapped. So every key
has the presence it had, and the bytes it had if the callback left the backing
array of its slice as it was; when the callback left the memory and the snapshot
as they were, store and memory are those before the call and the first result is
the snapshot that was passed to the callback. -/
theorem MutualTransaction_failing_writes_nothing (m : Ref.Memstore) (h : Heap)
    (keys : List String) (op : Mem.MutualTransactionOperation) (cause : GoError)
    (hfail : (op h (Ref.loadContents m.store keys)).2.2 = some cause) :
    (Mem.MutualTransaction m h keys op).1
        = (m, (op h (Ref.loadContents m.store keys)).1.1) ∧
      (Mem.MutualTransaction m h keys op).2
        = ((op h (Ref.loadContents m.store keys)).1.2, none, some cause) ∧
      (∀ k, ((Mem.MutualTransaction m h keys op).1.1.holds
          (Mem.MutualTransaction m h keys op).1.2 k).isSome = (m.holds h k).isSome) ∧
      (∀ k s, m.store.lookup k = some s →
        (Mem.MutualTransaction m h keys op).1.2 s.array = h s.array →
        (Mem.MutualTransaction m h keys op).1.1.holds
          (Mem.MutualTransaction m h keys op).1.2 k = m.holds h k) ∧
      ((op h (Ref.loadContents m.store keys)).1 = (h, Ref.loadContents m.store keys) →
        Mem.MutualTransaction m h keys op
          = ((m, h), (Ref.loadContents m.store keys, none, some cause))) := by
  have hres : Mem.MutualTransaction m h keys op
      = ((m, (op h (Ref.loadContents m.store keys)).1.1),
          ((op h (Ref.loadContents m.store keys)).1.2, none, some cause)) := by
    rw [mem_MutualTransaction_eq]
    simp [hfail]
  have hstore : (Mem.MutualTransaction m h keys op).1.1 = m := by rw [hres]
  refine ⟨by rw [hres], by rw [hres], ?_, ?_, ?_⟩
  · intro k
    rw [hstore, holds_isSome, holds_isSome]
  · intro k s hs hagree
    rw [hstore]
    exact holds_of_agree m h _ k s hs hagree
  · intro hsame
    rw [hres, hsame]

theorem MutualTransaction_failing_writes_nothing_witness :
    Mem.MutualTransaction Mem.oneStore Ref.exampleHeap ["a", "z"] Mem.failOnlyMutual
        = ((Mem.oneStore, Ref.exampleHeap),
            (Ref.loadContents Mem.oneStore.store ["a", "z"], none, some (.new "boom"))) ∧
      (Mem.MutualTransaction Mem.oneStore Ref.exampleHeap ["a"] Mem.failAfterWrites).1.1
        = Mem.oneStore :=
  ⟨(MutualTransaction_failing_writes_nothing Mem.oneStore Ref.exampleHeap ["a", "z"]
      Mem.failOnlyMutual (.new "boom") rfl).2.2.2.2 rfl,
    congrArg Prod.fst (MutualTransaction_failing_writes_nothing Mem.oneStore Ref.exampleHeap
      ["a"] Mem.failAfterWrites (.new "boom") rfl).1⟩

/-- C7 as stated fails: `"a"` holds the bytes 1, 2, 3, and the callback assigns 9
to the first element of the slice in its snapshot entry for `"a"` and returns,
with no error, a map whose only entry is for `"c"`. The key `"a"` is not in the
returned map, and after `MutualTransaction` it holds 9, 2, 3. -/
theorem MutualTransaction_writes_in_place_counterexample :
    (Mem.writeAndReturnOther Ref.exampleHeap (Ref.loadContents Mem.oneStore.store ["a"])).2.2
        = none ∧
      Ref.find (Mem.writeAndReturnOther Ref.exampleHeap
          (Ref.loadContents Mem.oneStore.store ["a"])).2.1 "a" = none ∧
      Mem.oneStore.holds Ref.exampleHeap "a" = some [1, 2, 3] ∧
      (Mem.MutualTransaction Mem.oneStore Ref.exampleHeap ["a"]
          Mem.writeAndReturnOther).1.1.holds
        (Mem.MutualTransaction Mem.oneStore Ref.exampleHeap ["a"]
          Mem.writeAndReturnOther).1.2 "a" = some [9, 2, 3] := by
  decide

/-- C7, amended: when the callback succeeds, the memory after `MutualTransaction`
is the memory the callback left, and in the store: every key of the returned map
whose value has `Exists` true is present with exactly that value's slice, so
holds the bytes that slice shows; every key of the returned map whose value has
`Exists` false is absent; every key with no entry in the returned map, and every
key when the returned map is nil, has the presence and the slice it had, and the
bytes it had if the callback left the backing array of that slice as it was.
Nothing is asked of the returned map in relation to `keys`. -/
theorem MutualTransaction_writes_slices (m : Ref.Memstore) (h : Heap) (keys : List String)
    (op : Mem.MutualTransactionOperation)
    (hok : (op h (Ref.loadContents m.store keys)).2.2 = none) :
    (Mem.MutualTransaction m h keys op).1.2 = (op h (Ref.loadContents m.store keys)).1.1 ∧
      (∀ k v, Ref.find (op h (Ref.loadContents m.store keys)).2.1 k = some v →
        v.Exists = true →
        (Mem.MutualTransaction m h keys op).1.1.store.lookup k = some v.Data ∧
          (Mem.MutualTransaction m h keys op).1.1.holds
              (Mem.MutualTransaction m h keys op).1.2 k
            = some (v.Data.bytes (op h (Ref.loadContents m.store keys)).1.1)) ∧
      (∀ k v, Ref.find (op h (Ref.loadContents m.store keys)).2.1 k = some v →
        v.Exists = false →
        (Mem.MutualTransaction m h keys op).1.1.store.lookup k = none) ∧
      (∀ k, Ref.find (op h (Ref.loadContents m.store keys)).2.1 k = none →
        (Mem.MutualTransaction m h keys op).1.1.store.lookup k = m.store.lookup k ∧
          ∀ s, m.store.lookup k = some s →
            (op h (Ref.loadContents m.store keys)).1.1 s.array = h s.array →
            (Mem.MutualTransaction m h keys op).1.1.holds
              (Mem.MutualTransaction m h keys op).1.2 k = m.holds h k) := by
  have hres : (Mem.MutualTransaction m h keys op).1
      = (⟨Ref.writeContents m.store (op h (Ref.loadContents m.store keys)).2.1⟩,
          (op h (Ref.loadContents m.store keys)).1.1) := by
    rw [mem_MutualTransaction_eq]
    simp [hok]
  rw [hres]
  refine ⟨rfl, ?_, ?_, ?_⟩
  · intro k v hv hex
    have hlook : (Ref.writeContents m.store
        (op h (Ref.loadContents m.store keys)).2.1).lookup k = some v.Data := by
      rw [slice_lookup_writeContents, hv]
      simp [hex]
    refine ⟨hlook, ?_⟩
    simp only [Ref.Memstore.holds]
    rw [hlook]
    rfl
  · intro k v hv hex
    simp only
    rw [slice_lookup_writeContents, hv]
    simp [hex]
  · intro k hk
    have hlook : (Ref.writeContents m.store
        (op h (Ref.loadContents m.store keys)).2.1).lookup k = m.store.lookup k := by
      rw [slice_lookup_writeContents, hk]
    refine ⟨hlook, ?_⟩
    intro s hs hagree
    simp only [Ref.Memstore.holds]
    rw [hlook, hs]
    simp only [Option.map_some', Slice.bytes, hagree]

theorem MutualTransaction_writes_slices_witness :
    ((Mem.MutualTransaction Mem.oneStore Ref.exampleHeap ["a"]
          (Mem.constOp (some Mem.exampleData))).1.1.store.lookup "c" = some ⟨1, 0, 2⟩ ∧
        (Mem.MutualTransaction Mem.oneStore Ref.exampleHeap ["a"]
            (Mem.constOp (some Mem.exampleData))).1.1.holds
          (Mem.MutualTransaction Mem.oneStore Ref.exampleHeap ["a"]
            (Mem.constOp (some Mem.exampleData))).1.2 "c"
          = some (Slice.bytes Ref.exampleHeap ⟨1, 0, 2⟩)) ∧
      (Mem.MutualTransaction Mem.oneStore Ref.exampleHeap ["a"]
        (Mem.constOp (some Mem.exampleData))).1.1.store.lookup "a" = none ∧
      (Mem.MutualTransaction Mem.oneStore Ref.exampleHeap ["a"]
        (Mem.constOp none)).1.1.store.lookup "a" = Mem.oneStore.store.lookup "a" :=
  ⟨(MutualTransaction_writes_slices Mem.oneStore Ref.exampleHeap ["a"]
      (Mem.constOp (some Mem.exampleData)) rfl).2.1 "c" ⟨⟨1, 0, 2⟩, true⟩ (by decide) rfl,
    (MutualTransaction_writes_slices Mem.oneStore Ref.exampleHeap ["a"]
      (Mem.constOp (some Mem.exampleData)) rfl).2.2.1 "a" ⟨Slice.nil, false⟩ (by decide) rfl,
    ((MutualTransaction_writes_slices Mem.oneStore Ref.exampleHeap ["a"]
      (Mem.constOp none) rfl).2.2.2 "a" rfl).1⟩

/-- C8 as stated fails: `"a"` holds the bytes 1, 2, 3, and the callback gives its
snapshot a new entry for `"a"`, a slice showing 1, 2, adds an entry for `"q"`,
and returns the snapshot with no error. The first result of `MutualTransaction`
on the key list `"a"` has the keys `"q"` and `"a"`, and its entry for `"a"` shows
1, 2 where the store held 1, 2, 3 before the call. -/
theorem MutualTransaction_snapshot_mutated_counterexample :
    (Mem.MutualTransaction Mem.oneStore Ref.exampleHeap ["a"] Mem.returnMutated).2.2.2
        = none ∧
      (Mem.MutualTransaction Mem.oneStore Ref.exampleHeap ["a"] Mem.returnMutated).2.1.keys
        = ["q", "a"] ∧
      Mem.oneStore.holds Ref.exampleHeap "a" = some [1, 2, 3] ∧
      ((Mem.MutualTransaction Mem.oneStore Ref.exampleHeap ["a"]
          Mem.returnMutated).2.1.lookup "a").map
        (fun v => (v.Data.bytes Ref.exampleHeap, v.Exists)) = some ([1, 2], true) := by
  decide

/-- C8, amended: the map that `MutualTransaction` passes to the callback is the
snapshot: its keys are exactly the elements of `keys`, it maps each of them to
the stored slice and true when the key was present and to the nil slice and
false when it was absent, and a key list with the same elements gives a snapshot
with the same entries up to their order. The first result is that map as the
callback left it, so it is the snapshot when the callback assigned nothing in
it. When the callback succeeds the second result is the map the callback
returned and the error is nil. -/
theorem MutualTransaction_snapshot_passed (m : Ref.Memstore) (h : Heap)
    (keys : List String) (op : Mem.MutualTransactionOperation) :
    (Mem.MutualTransaction m h keys op).2.1
        = (op h (Ref.loadContents m.store keys)).1.2 ∧
      (∀ k, k ∈ (Ref.loadContents m.store keys).keys ↔ k ∈ keys) ∧
      (Ref.loadContents m.store keys).keys.Nodup ∧
      (∀ k s, k ∈ keys → m.store.lookup k = some s →
        (Ref.loadContents m.store keys).lookup k = some ⟨s, true⟩) ∧
      (∀ k, k ∈ keys → m.store.lookup k = none →
        (Ref.loadContents m.store keys).lookup k = some ⟨Slice.nil, false⟩) ∧
      (∀ keys2 : List String, (∀ k, k ∈ keys2 ↔ k ∈ keys) →
        List.Perm (Ref.loadContents m.store keys2).entries
            (Ref.loadContents m.store keys).entries ∧
          ∀ k, (Ref.loadContents m.store keys2).lookup k
            = (Ref.loadContents m.store keys).lookup k) ∧
      ((op h (Ref.loadContents m.store keys)).1.2 = Ref.loadContents m.store keys →
        (Mem.MutualTransaction m h keys op).2.1 = Ref.loadContents m.store keys) ∧
      ((op h (Ref.loadContents m.store keys)).2.2 = none →
        (Mem.MutualTransaction m h keys op).2.2
          = ((op h (Ref.loadContents m.store keys)).2.1, none)) := by
  have hfst : (Mem.MutualTransaction m h keys op).2.1
      = (op h (Ref.loadContents m.store keys)).1.2 := by
    rw [mem_MutualTransaction_eq]
    by_cases herr : (op h (Ref.loadContents m.store keys)).2.2.isSome = true
    · simp [herr]
    · simp [herr]
  have hlook : ∀ keys2 : List String, (∀ k, k ∈ keys2 ↔ k ∈ keys) →
      ∀ k, (Ref.loadContents m.store keys2).lookup k
        = (Ref.loadContents m.store keys).lookup k := by
    intro keys2 hsame k
    rw [slice_lookup_loadContents, slice_lookup_loadContents]
    by_cases hk : k ∈ keys
    · simp [hk, (hsame k).2 hk]
    · have hk2 : k ∉ keys2 := fun hmem => hk ((hsame k).1 hmem)
      simp [hk, hk2]
  refine ⟨hfst, ?_, AList.keys_nodup _, ?_, ?_, ?_, ?_, ?_⟩
  · intro k
    rw [← AList.mem_keys, ← AList.lookup_isSome, slice_lookup_loadContents]
    by_cases hk : k ∈ keys
    · simp [hk]
    · simp [hk]
  · intro k s hk hs
    rw [slice_lookup_loadContents]
    simp [hk, hs]
  · intro k hk hnone
    rw [slice_lookup_loadContents]
    simp [hk, hnone]
  · intro keys2 hsame
    exact ⟨entries_perm_of_lookup_eq _ _ (hlook keys2 hsame), hlook keys2 hsame⟩
  · intro hsame
    rw [hfst, hsame]
  · intro herr
    rw [mem_MutualTransaction_eq]
    simp [herr]

theorem MutualTransaction_snapshot_passed_witness :
    List.Perm (Ref.loadContents Mem.oneStore.store ["z", "a", "z"]).entries
        (Ref.loadContents Mem.oneStore.store ["a", "z"]).entries ∧
      (Mem.MutualTransaction Mem.oneStore Ref.exampleHeap ["a", "z"]
        (Mem.constOp (some Mem.exampleData))).2.1
        = Ref.loadContents Mem.oneStore.store ["a", "z"] ∧
      (Mem.MutualTransaction Mem.oneStore Ref.exampleHeap ["a", "z"]
        (Mem.constOp (some Mem.exampleData))).2.2 = (some Mem.exampleData, none) :=
  ⟨((MutualTransaction_snapshot_passed Mem.oneStore Ref.exampleHeap ["a", "z"]
      (Mem.constOp none)).2.2.2.2.2.1 ["z", "a", "z"] (by simp [or_comm])).1,
    (MutualTransaction_snapshot_passed Mem.oneStore Ref.exampleHeap ["a", "z"]
      (Mem.constOp (some Mem.exampleData))).2.2.2.2.2.2.1 rfl,
    (MutualTransaction_snapshot_passed Mem.oneStore Ref.exampleHeap ["a", "z"]
      (Mem.constOp (some Mem.exampleData))).2.2.2.2.2.2.2 rfl⟩

end ekv
